import Mathlib

/-!
Verification of the Emma conversation/session engine (`emma/chat.py`).

The Python source is shallowly embedded: classes become structures, methods
become pure functions, the nondeterministic environment (UUID generation,
`datetime.now()`, HTTP calls to the Ollama backend, the file system) is passed
in explicitly as arguments, and Python exceptions become `Except` values.
Python dictionaries read with `.get(key, default)` become structures with
`Option` fields.
-/

/-! ## Basic string helpers (kernel-reducible replacements for Python idioms) -/

/-- Python `needle in haystack` (substring containment) on character lists. -/
def hasSubList (needle : List Char) : List Char → Bool
  | [] => needle.isEmpty
  | c :: cs => needle.isPrefixOf (c :: cs) || hasSubList needle cs

/-- Python `needle in haystack` on strings. -/
def strContains (haystack needle : String) : Bool :=
  hasSubList needle.data haystack.data

/-- Python `s.endswith(suffix)`. -/
def strEndsWith (s suffix : String) : Bool :=
  suffix.data.reverse.isPrefixOf s.data.reverse

/-- Python `s.strip()`: drop leading and trailing whitespace. -/
def strStrip (s : String) : String :=
  ⟨((s.data.dropWhile Char.isWhitespace).reverse.dropWhile Char.isWhitespace).reverse⟩

/-- Python `s[:n]` on strings (slicing never fails). -/
def strTake (s : String) (n : Nat) : String :=
  ⟨s.data.take n⟩

/-- Lexicographic comparison of character lists by code point, `a <= b`.
ISO-8601 timestamps produced by a non-decreasing clock compare this way. -/
def charListLe : List Char → List Char → Bool
  | [], _ => true
  | _ :: _, [] => false
  | a :: as, b :: bs =>
    if a.toNat < b.toNat then true
    else if a.toNat = b.toNat then charListLe as bs
    else false

/-- Lexicographic `a <= b` on strings (timestamp order). -/
def strLe (a b : String) : Bool :=
  charListLe a.data b.data

/-- Truthiness of a Python value that is either `None` or a string:
`None` and `""` are falsy, everything else truthy. -/
def pyTruthy : Option String → Bool
  | none => false
  | some s => s ≠ ""

/-! ## A small JSON model

Only the shapes inspected by `chat.py`'s response-extraction code are
distinguished: strings, objects, and non-container scalars (numbers,
booleans, null). JSON arrays are not modelled. -/

inductive Json where
  | str : String → Json
  | obj : List (String × Json) → Json
  | other : Json

/-- Key lookup in a JSON object's field list (first occurrence wins,
like Python dict access after JSON decoding, where keys are unique). -/
def jsonLookup (fields : List (String × Json)) (k : String) : Option Json :=
  match fields with
  | [] => none
  | (k', v) :: rest => if k' = k then some v else jsonLookup rest k

/-! ## `Message` (chat.py lines 20-41) -/

/-- `Message`: one turn of the conversation. `timestamp` is fixed at creation
(`datetime.now().isoformat()` is passed in as the `now` argument). -/
structure Message where
  role : String
  content : String
  timestamp : String
deriving DecidableEq

/-- `Message.__init__(role, content)` at current time `now`. -/
def Message.init (role content now : String) : Message :=
  { role := role, content := content, timestamp := now }

/-- Wire form of a message: the dict read by `Message.from_dict`.
`role` and `content` are accessed with `data["..."]` (required);
`timestamp` is optional (`if "timestamp" in data`). -/
structure MsgDict where
  role : String
  content : String
  timestamp : Option String
deriving DecidableEq

/-- `Message.to_dict` (chat.py lines 27-33). -/
def Message.to_dict (m : Message) : MsgDict :=
  { role := m.role, content := m.content, timestamp := some m.timestamp }

/-- `Message.from_dict` (chat.py lines 35-41): builds `Message(role, content)`
(timestamping it `now`) and overwrites the timestamp when the key is present. -/
def Message.from_dict (now : String) (d : MsgDict) : Message :=
  { role := d.role, content := d.content, timestamp := d.timestamp.getD now }

/-! ## `Conversation` (chat.py lines 43-93) -/

structure Conversation where
  id : String
  messages : List Message
  created_at : String
  updated_at : String
deriving DecidableEq

/-- `Conversation.add_system_message` (chat.py lines 53-56). -/
def Conversation.add_system_message (c : Conversation) (content now : String) :
    Conversation :=
  { c with messages := c.messages ++ [Message.init "system" content now],
           updated_at := now }

/-- `Conversation.add_user_message` (chat.py lines 58-61). -/
def Conversation.add_user_message (c : Conversation) (content now : String) :
    Conversation :=
  { c with messages := c.messages ++ [Message.init "user" content now],
           updated_at := now }

/-- `Conversation.add_assistant_message` (chat.py lines 63-66). -/
def Conversation.add_assistant_message (c : Conversation) (content now : String) :
    Conversation :=
  { c with messages := c.messages ++ [Message.init "assistant" content now],
           updated_at := now }

/-- `Conversation.__init__(system_prompt)` (chat.py lines 45-51).
`freshId` is the generated `uuid4`; `t1` is the clock when the optional
system message is appended, `t2` the (later or equal) clock when
`created_at`/`updated_at` are set — note the source sets them *after* the
append, so both end up equal to `t2`. -/
def Conversation.init (freshId t1 t2 system_prompt : String) : Conversation :=
  let base : Conversation :=
    { id := freshId, messages := [], created_at := "", updated_at := "" }
  let withMsg :=
    if system_prompt ≠ "" then base.add_system_message system_prompt t1 else base
  { withMsg with created_at := t2, updated_at := t2 }

/-- Wire form of a conversation: the dict read by `Conversation.from_dict`,
where every field is accessed with `.get` and may be absent. -/
structure ConvDict where
  id : Option String
  messages : Option (List MsgDict)
  created_at : Option String
  updated_at : Option String
deriving DecidableEq

/-- `Conversation.to_dict` (chat.py lines 68-75). -/
def Conversation.to_dict (c : Conversation) : ConvDict :=
  { id := some c.id,
    messages := some (c.messages.map Message.to_dict),
    created_at := some c.created_at,
    updated_at := some c.updated_at }

/-- `Conversation.from_dict` (chat.py lines 77-85): starts from `cls()`
(fresh uuid `freshId`, current time `now`) and overwrites each field that is
present in the dict. -/
def Conversation.from_dict (freshId now : String) (d : ConvDict) : Conversation :=
  { id := d.id.getD freshId,
    messages := (d.messages.getD []).map (Message.from_dict now),
    created_at := d.created_at.getD now,
    updated_at := d.updated_at.getD now }

/-- `Conversation.to_ollama_messages` (chat.py lines 87-89). -/
def Conversation.to_ollama_messages (c : Conversation) : List (String × String) :=
  c.messages.map (fun m => (m.role, m.content))

/-- `Conversation.get_last_messages` (chat.py lines 91-93). -/
def Conversation.get_last_messages (c : Conversation) (limit : Int) : List Message :=
  if limit > 0 then c.messages.drop (c.messages.length - limit.toNat) else c.messages

/-! ## `process_search_commands` (chat.py lines 201-222)

The method applies `re.sub` with pattern `<([^>]+)>(.*?)</\1>` and the
`replace_search` callback. The regex is embedded directly:

* group 1 (the kind) is `[^>]+` followed by a literal `>`: since `[^>]`
  can never consume a `>`, backtracking cannot shorten it, so the kind is
  exactly the run of non-`>` characters up to the first `>` (nonempty);
* group 2 (the payload) is non-greedy `.*?` followed by the back-referenced
  closing tag `</kind>`: the shortest run of non-newline characters
  (`.` does not match `\n`) after which the closing tag occurs;
* `re.sub` scans left to right, replaces non-overlapping matches, and
  resumes scanning after each match.
-/

/-- Read `[^>]+>`: the characters up to the first `>` (which must exist),
returning them and the rest after the `>`. -/
def readUntilGt : List Char → Option (List Char × List Char)
  | [] => none
  | c :: cs =>
    if c = '>' then some ([], cs)
    else
      match readUntilGt cs with
      | some (k, rest) => some (c :: k, rest)
      | none => none

/-- Non-greedy `(.*?)` followed by the literal `close`: the shortest prefix of
non-newline characters after which `close` occurs; returns the payload and the
text after `close`. -/
def splitAtClose (close : List Char) : List Char → Option (List Char × List Char)
  | [] => if close.isPrefixOf ([] : List Char) then some ([], []) else none
  | c :: cs =>
    if close.isPrefixOf (c :: cs) then some ([], (c :: cs).drop close.length)
    else if c = '\n' then none
    else (splitAtClose close cs).map (fun pr => (c :: pr.1, pr.2))

/-- Attempt to match `([^>]+)>(.*?)</\1>` on the text following an opening
`<`; on success returns the kind, the payload, and the rest of the text. -/
def tryMatchTag (cs : List Char) : Option (List Char × List Char × List Char) :=
  match readUntilGt cs with
  | none => none
  | some (k, afterGt) =>
    if k = [] then none
    else
      match splitAtClose ('<' :: '/' :: (k ++ ['>'])) afterGt with
      | none => none
      | some (p, rest) => some (k, p, rest)

/-- The `replace_search` callback (chat.py lines 205-218): known kinds map to
a bracketed placeholder, any other kind returns the whole match verbatim. -/
def replaceSearch (k p : List Char) : List Char :=
  if k = "search".data then "[Searching internet for: ".data ++ p ++ [']']
  else if k = "memory".data then "[Searching memory for: ".data ++ p ++ [']']
  else if k = "query".data then "[Querying database for: ".data ++ p ++ [']']
  else '<' :: (k ++ '>' :: (p ++ '<' :: '/' :: (k ++ ['>'])))

/-- `re.sub` over the text. Matches can only start at a `<`; on a match the
replacement is emitted and scanning resumes after the match; otherwise one
character is copied. `fuel` bounds recursion; any `fuel > length` computes
the fixpoint since every step consumes at least one character. -/
def reSubFuel : Nat → List Char → List Char
  | 0, s => s
  | _ + 1, [] => []
  | fuel + 1, c :: cs =>
    if c = '<' then
      match tryMatchTag cs with
      | some (k, p, rest) => replaceSearch k p ++ reSubFuel fuel rest
      | none => c :: reSubFuel fuel cs
    else c :: reSubFuel fuel cs

/-- `ChatSession.process_search_commands` (chat.py lines 201-222). -/
def process_search_commands (text : String) : String :=
  ⟨reSubFuel (text.data.length + 1) text.data⟩

/-! ## `Config` (external collaborator) -/

/-- Modelled from the spec: the `Config` class lives in `emma/config.py`, which
is not among the sources (only `chat.py` imports it). Spec §3 lists its fields:
host URL, model name, numeric generation parameters (never inspected by the
code verified here, represented as integers), base system prompt, user name,
a `personalities` mapping from name to system-prompt text, persistence switch,
storage directory and verbosity flag. -/
structure Config where
  ollama_host : String
  model : String
  temperature : Int
  max_tokens : Int
  top_p : Int
  top_k : Int
  system_prompt : String
  user_name : String
  personalities : List (String × String)
  save_conversations : Bool
  conversation_dir : String
  verbose : Bool
deriving DecidableEq

/-- Modelled from the spec: `Config.get_personality(name)` looks `name` up in
the configured personalities mapping (spec §3: "personalities: mapping
name→system-prompt text"; §4.3: "looks up `name` in configured
personalities"), yielding the prompt text, or `None` when absent. -/
def Config.get_personality (c : Config) (name : String) : Option String :=
  (c.personalities.find? (fun p => p.1 = name)).map (fun p => p.2)

/-! ## `ChatSession` construction (chat.py lines 95-149)

The version probe (`GET /api/version`, verbose-only, best-effort) and the
creation of the conversation directory are I/O without effect on the session
state and are not modelled. -/

/-- The fixed instruction block appended to the system prompt in
`ChatSession.__init__` (chat.py lines 106-126), verbatim. -/
def searchInstructions : String :=
  "\n        \n        Tu tarea es analizar el prompt del usuario y determinar si requiere una búsqueda.\n        Si el prompt requiere información que no está en tu conocimiento base, debes usar los siguientes comandos:\n        \n        Para búsquedas en internet/wikipedia:\n        <search>término de búsqueda</search>\n        \n        Para búsquedas en tu propia memoria interna:\n        <memory>término de búsqueda</memory>\n        \n        Para búsquedas en la base de datos/APIs:\n        <query>término de búsqueda</query>\n        \n        Ejemplos de prompts que requieren búsqueda:\n        - \"¿Cuál es la capital de Francia?\" -> <search>capital de Francia</search>\n        - \"¿Qué es Python?\" -> <search>Python programming language</search>\n        - \"¿Cuál fue mi última conversación sobre IA?\" -> <memory>última conversación IA</memory>\n        \n        Si el prompt no requiere búsqueda, responde normalmente.\n        "

/-- The effective system prompt built in `ChatSession.__init__`
(chat.py lines 100-126): the configured base prompt, then — only when the
literal `"Oz"` does not occur in it *and* the configured user name equals
`"Oz"` — a user-name clause, then the fixed instruction block. -/
def initialSystemPrompt (config : Config) : String :=
  let sp := config.system_prompt
  let sp :=
    if !(strContains sp "Oz") && (config.user_name == "Oz") then
      sp ++ " Estás interactuando con " ++ config.user_name ++
        ", un usuario de la interfaz Emma."
    else sp
  sp ++ searchInstructions

structure ChatSession where
  config : Config
  conversation : Conversation
deriving DecidableEq

/-- `ChatSession.__init__` (chat.py lines 97-149): builds the effective system
prompt and starts a `Conversation` with it; `freshId`, `t1`, `t2` are the
uuid and clock readings consumed by `Conversation.__init__`. -/
def ChatSession.init (config : Config) (freshId t1 t2 : String) : ChatSession :=
  { config := config
    conversation := Conversation.init freshId t1 t2 (initialSystemPrompt config) }

/-! ## `analyze_prompt` (chat.py lines 151-199)

The HTTP exchange is abstracted as an `AnalysisCall` value: either some
exception was raised by `requests.post`/`raise_for_status`/`response.json()`
(all caught by the blanket `except Exception`), or a decoded JSON body. -/

inductive AnalysisCall where
  | exn : String → AnalysisCall
  | ok : List (String × Json) → AnalysisCall

/-- The extraction chain of `analyze_prompt` (chat.py lines 184-189):
`analysis_result = ""`, then `message.content` (stripped) when present, else
the flat `response` field (stripped). `.error` marks a Python exception
raised by the chain itself (e.g. `in` on a non-container, `.strip()` on a
non-string), which the enclosing `except Exception` also catches. -/
def analysisValue (body : List (String × Json)) : Except String String :=
  match jsonLookup body "message" with
  | some (Json.obj m) =>
    match jsonLookup m "content" with
    | some (Json.str s) => .ok (strStrip s)
    | some _ => .error "AttributeError"
    | none =>
      match jsonLookup body "response" with
      | some (Json.str s) => .ok (strStrip s)
      | some _ => .error "AttributeError"
      | none => .ok ""
  | some (Json.str s) =>
    if strContains s "content" then .error "TypeError"
    else
      match jsonLookup body "response" with
      | some (Json.str s') => .ok (strStrip s')
      | some _ => .error "AttributeError"
      | none => .ok ""
  | some Json.other => .error "TypeError"
  | none =>
    match jsonLookup body "response" with
    | some (Json.str s) => .ok (strStrip s)
    | some _ => .error "AttributeError"
    | none => .ok ""

/-- `ChatSession.analyze_prompt` (chat.py lines 151-199): `None` on any
exception; otherwise the extracted text unless it equals `"NO_SEARCH"`,
in which case `None`. -/
def analyze_prompt (call : AnalysisCall) : Option String :=
  match call with
  | AnalysisCall.exn _ => none
  | AnalysisCall.ok body =>
    match analysisValue body with
    | .error _ => none
    | .ok r => if r ≠ "NO_SEARCH" then some r else none

/-! ## `get_response` (chat.py lines 224-304)

The main generation HTTP exchange is abstracted as a `MainCall` value:
a `requests.RequestException` (backend unreachable, non-2xx raised by
`raise_for_status`, timeout), or a 2xx reply whose body either decodes as
JSON or does not (`json.JSONDecodeError`, in which case the raw
`response.text` is used). -/

inductive MainCall where
  | transportErr : String → MainCall
  | okJson : List (String × Json) → MainCall
  | okRaw : String → MainCall

/-- The assistant-text extraction chain of the main call
(chat.py lines 268-280): `message.content`, else the flat `response` field,
else a scan of the top-level entries for the first dict containing
`"content"` or the first string with non-blank content; `""` when nothing
matches. `.error` marks either a Python exception raised by the chain
(`in` applied to a non-container) or a turn in which a non-string value
would be stored as the assistant message — turns outside this model. -/
def mainExtract (body : List (String × Json)) : Except String String :=
  match jsonLookup body "message" with
  | some (Json.obj m) =>
    match jsonLookup m "content" with
    | some (Json.str s) => .ok s
    | some _ => .error "non-string message content: not modelled"
    | none => mainExtractResponse body
  | some (Json.str s) =>
    if strContains s "content" then .error "TypeError"
    else mainExtractResponse body
  | some Json.other => .error "TypeError"
  | none => mainExtractResponse body
where
  /-- The `elif "response" in response_data` arm and the final scan. -/
  mainExtractResponse (body : List (String × Json)) : Except String String :=
    match jsonLookup body "response" with
    | some (Json.str s) => .ok s
    | some _ => .error "non-string response field: not modelled"
    | none => mainExtractScan body
  /-- The `for key, value in response_data.items()` fallback loop. -/
  mainExtractScan : List (String × Json) → Except String String
    | [] => .ok ""
    | (_, Json.obj fields) :: rest =>
      match jsonLookup fields "content" with
      | some (Json.str s) => .ok s
      | some _ => .error "non-string content in scanned dict: not modelled"
      | none => mainExtractScan rest
    | (_, Json.str s) :: rest =>
      if strStrip s ≠ "" then .ok s else mainExtractScan rest
    | (_, Json.other) :: rest => mainExtractScan rest

/-- The observable outcome of one `get_response` turn: the updated
conversation, the returned string, and whether `_save_conversation` ran. -/
structure TurnResult where
  conversation : Conversation
  reply : String
  saved : Bool
deriving DecidableEq

/-- The lookup branch of `get_response` (chat.py lines 229-234): the analysis
produced a truthy command, which is rewritten and appended; no save occurs. -/
def lookupTurn (s : ChatSession) (user_input cmd tU tA : String) : TurnResult :=
  let processed := process_search_commands cmd
  { conversation :=
      (s.conversation.add_user_message user_input tU).add_assistant_message
        processed tA
    reply := processed
    saved := false }

/-- The normal-generation branch of `get_response` (chat.py lines 236-304):
append the user message, issue the main call, extract or substitute the
assistant text, append it, save when enabled; a `requests.RequestException`
is caught and turned into a visible error message (not saved). A result of
`.error` means a Python exception escapes `get_response` (possible only for
response bodies outside the extraction chain's expectations). -/
def normalTurn (s : ChatSession) (user_input : String) (mc : MainCall)
    (tU tA : String) : Except String TurnResult :=
  let conv := s.conversation.add_user_message user_input tU
  match mc with
  | MainCall.transportErr e =>
    let error_msg := "Error al comunicarse con Ollama: " ++ e
    .ok { conversation := conv.add_assistant_message error_msg tA
          reply := error_msg
          saved := false }
  | MainCall.okJson body =>
    match mainExtract body with
    | .error ex => .error ex
    | .ok m =>
      let m := if m = "" then "Lo siento, no pude generar una respuesta." else m
      .ok { conversation := conv.add_assistant_message m tA
            reply := m
            saved := s.config.save_conversations }
  | MainCall.okRaw text =>
    let m := strStrip text
    let m := if m = "" then "Lo siento, no pude generar una respuesta." else m
    .ok { conversation := conv.add_assistant_message m tA
          reply := m
          saved := s.config.save_conversations }

/-- `ChatSession.get_response` (chat.py lines 224-304): run the analysis
call; on a truthy command take the lookup branch, otherwise the
normal-generation branch. `tU`/`tA` are the clock readings for the user and
assistant appends. -/
def get_response (s : ChatSession) (user_input : String) (ac : AnalysisCall)
    (mc : MainCall) (tU tA : String) : Except String TurnResult :=
  let search_command := analyze_prompt ac
  if pyTruthy search_command then
    .ok (lookupTurn s user_input (search_command.getD "") tU tA)
  else
    normalTurn s user_input mc tU tA

/-- `ChatSession.change_personality` (chat.py lines 306-317): look the name up
in the configured personalities; when truthy, append the user-name clause if
the user name does not occur in the prompt and replace the conversation with
a fresh one; otherwise leave the session untouched and report failure. -/
def ChatSession.change_personality (s : ChatSession)
    (name freshId t1 t2 : String) : ChatSession × Bool :=
  let system_prompt := s.config.get_personality name
  if pyTruthy system_prompt then
    let sp0 := system_prompt.getD ""
    let sp :=
      if !(strContains sp0 s.config.user_name) then
        sp0 ++ " Estás conversando con " ++ s.config.user_name ++ "."
      else sp0
    ({ s with conversation := Conversation.init freshId t1 t2 sp }, true)
  else (s, false)

/-! ## `list_conversations` (chat.py lines 353-383)

A stored conversation file is abstracted to the fields the listing reads:
every field is accessed with `.get` and may be absent; of each stored
message only the optional `content` key is read. Reading/decoding a file is
an `Except` (exceptions from `open`/`json.load`). The directory is given as
the ordered list of file names with their read outcome. -/

/-- A stored message as read by the listing (`.get("content", "")`). -/
structure StoredMsg where
  content : Option String
deriving DecidableEq

/-- A stored conversation file as read by the listing. -/
structure StoredConv where
  id : Option String
  created_at : Option String
  updated_at : Option String
  messages : Option (List StoredMsg)
deriving DecidableEq

/-- A conversation summary (chat.py lines 368-374). -/
structure ConvSummary where
  id : String
  created_at : String
  updated_at : String
  message_count : Nat
  preview : String
deriving DecidableEq

/-- The summary computed for one file (chat.py lines 368-374): the preview
indexes `data.get("messages", [{}])[0]` — the default `[{}]` applies only
when the `messages` key is absent, so a present-but-empty list raises
`IndexError` (`.error`). -/
def summarize (d : StoredConv) : Except String ConvSummary :=
  match d.messages.getD [{ content := none }] with
  | [] => .error "IndexError: list index out of range"
  | m :: _ =>
    .ok { id := d.id.getD ""
          created_at := d.created_at.getD ""
          updated_at := d.updated_at.getD ""
          message_count := (d.messages.getD []).length
          preview := strTake (m.content.getD "") 50 ++ "..." }

/-- Outcome of opening and JSON-decoding one file. -/
inductive FileRead where
  | exn : String → FileRead
  | ok : StoredConv → FileRead

/-- The enumeration loop of `list_conversations` (chat.py lines 361-375):
non-`.json` names are skipped; the first raised exception aborts the loop
(flag `false`), carrying the summaries accumulated so far. -/
def listLoop : List (String × FileRead) → List ConvSummary →
    List ConvSummary × Bool
  | [], acc => (acc, true)
  | (name, content) :: rest, acc =>
    if strEndsWith name ".json" then
      match content with
      | FileRead.exn _ => (acc, false)
      | FileRead.ok d =>
        match summarize d with
        | .error _ => (acc, false)
        | .ok s => listLoop rest (acc ++ [s])
    else listLoop rest acc

/-- Stable descending insertion: `x` is placed after every element whose
`updated_at` key is greater than or equal to its own, so elements with equal
keys keep their original relative order. -/
def insertByUpdatedDesc (x : ConvSummary) : List ConvSummary → List ConvSummary
  | [] => [x]
  | y :: ys =>
    if strLe x.updated_at y.updated_at then y :: insertByUpdatedDesc x ys
    else x :: y :: ys

/-- The sort of chat.py line 378 (`list.sort(key=..., reverse=True)`):
stable, by `updated_at` descending, modelled as a stable insertion sort. -/
def sortByUpdatedDesc (l : List ConvSummary) : List ConvSummary :=
  l.foldl (fun acc x => insertByUpdatedDesc x acc) []

/-- `ChatSession.list_conversations` (chat.py lines 353-383): empty when the
directory does not exist; otherwise enumerate and summarize the `.json`
files; when the loop completes, sort by `updated_at` descending; when a file
raises, the exception is caught *outside* the loop and the summaries
accumulated so far are returned unsorted. -/
def list_conversations (dirExists : Bool) (files : List (String × FileRead)) :
    List ConvSummary :=
  if !dirExists then []
  else
    match listLoop files [] with
    | (acc, true) => sortByUpdatedDesc acc
    | (acc, false) => acc

/-! ## Auxiliary definitions used by the statements below -/

/-- No occurrence of `close` starts strictly before the end of the payload
`p` in `p ++ close`: this is exactly the condition under which the
non-greedy `(.*?)</kind>` captures all of `p`. -/
def noEarlyClose (close : List Char) : List Char → Bool
  | [] => true
  | c :: cs => !(close.isPrefixOf (c :: (cs ++ close))) && noEarlyClose close cs

/-- A directory entry that the listing loop consumes successfully:
a `.json` name whose content decodes and summarizes. -/
def fileOk (f : String × FileRead) : Bool :=
  strEndsWith f.1 ".json" &&
    match f.2 with
    | FileRead.ok d => match summarize d with | .ok _ => true | .error _ => false
    | FileRead.exn _ => false

/-- A directory entry on which the listing loop raises: a `.json` name that
fails to read/decode or whose summary computation raises. -/
def fileBad (f : String × FileRead) : Bool :=
  strEndsWith f.1 ".json" &&
    match f.2 with
    | FileRead.ok d => match summarize d with | .ok _ => false | .error _ => true
    | FileRead.exn _ => true

/-- The summaries a list of well-behaved directory entries produces, in
directory order. -/
def fileSummaries (files : List (String × FileRead)) : List ConvSummary :=
  files.filterMap (fun f =>
    if strEndsWith f.1 ".json" then
      match f.2 with
      | FileRead.ok d => (summarize d).toOption
      | FileRead.exn _ => none
    else none)

/-- The effective system prompt as claim C7 words it (a definition following
the spec, for comparison with `initialSystemPrompt`, which follows the
source): the user-name clause is appended whenever the base prompt does not
already contain the *configured user name*. -/
def claimedSystemPrompt (config : Config) : String :=
  let sp := config.system_prompt
  let sp :=
    if !(strContains sp config.user_name) then
      sp ++ " Estás interactuando con " ++ config.user_name ++
        ", un usuario de la interfaz Emma."
    else sp
  sp ++ searchInstructions

/-! ## Concrete values used by witnesses -/

/-- A concrete configuration for witnesses. -/
def cfgW : Config :=
  { ollama_host := "http://localhost:11434"
    model := "llama3"
    temperature := 1
    max_tokens := 1000
    top_p := 1
    top_k := 40
    system_prompt := "Eres Emma, una asistente amigable."
    user_name := "Oz"
    personalities := [("amigable", "Eres Emma, una asistente amigable."),
                      ("vacia", "")]
    save_conversations := true
    conversation_dir := "conversations"
    verbose := false }

/-- A concrete session for witnesses. -/
def sessionW : ChatSession := ChatSession.init cfgW "uuid-0" "t01" "t02"

/-- A configuration on which claim C7's wording and the source disagree:
the configured user name is not `"Oz"` and does not occur in the base
prompt. -/
def cfgAlice : Config :=
  { cfgW with system_prompt := "Eres Emma.", user_name := "Alice" }

/-- A stored conversation file whose `messages` key is present but empty:
the preview computation raises `IndexError` on it. -/
def storedEmptyMsgs : StoredConv :=
  { id := some "b", created_at := some "T1", updated_at := some "T1",
    messages := some [] }

/-- A well-formed stored conversation file. -/
def storedGood1 : StoredConv :=
  { id := some "a", created_at := some "T1", updated_at := some "T1",
    messages := some [{ content := some "hola" }] }

/-- Another well-formed stored conversation file, updated later than
`storedGood1`. -/
def storedGood2 : StoredConv :=
  { id := some "c", created_at := some "T2", updated_at := some "T2",
    messages := some [{ content := some "adios" }] }

/-- A concrete conversation for witnesses. -/
def convW : Conversation :=
  { id := "uuid-9", messages := [Message.init "system" "hola" "T1"],
    created_at := "T1", updated_at := "T1" }

/-! ## Claim C3's reading of `process_search_commands`

The claim describes the function on *every* input text: each non-greedy
tag-delimited command whose opening and closing kinds match is replaced by
the corresponding placeholder (or left verbatim for unknown kinds), and the
text outside the matches is untouched. The following definitions follow the
claim's words: decompose the text at the leftmost command, emit the gap
unchanged, replace the command according to its kind, and continue after
it. They share with the source only the notion of what a single command
match is (`tryMatchTag` — the claim's "non-greedy tag-delimited command
`<kind>payload</kind>` whose opening and closing kinds match"); the
iteration structure and the replacement texts are built independently from
the claim's sentence. -/

/-- The leftmost command match in a text: the gap before it, its kind and
payload, and the rest of the text after it; `none` when no command occurs. -/
def findFirstMatch : List Char → Option (List Char × (List Char × List Char) × List Char)
  | [] => none
  | c :: cs =>
    if c = '<' then
      match tryMatchTag cs with
      | some (k, p, rest) => some ([], (k, p), rest)
      | none => (findFirstMatch cs).map (fun r => (c :: r.1, r.2))
    else (findFirstMatch cs).map (fun r => (c :: r.1, r.2))

/-- The replacement the claim prescribes for one command: the placeholder
`[Searching internet for: payload]` when the kind is `search`,
`[Searching memory for: payload]` when `memory`, `[Querying database for:
payload]` when `query`, and the match itself, verbatim, for any other
kind. -/
def claimReplacement (k p : List Char) : List Char :=
  if k = "search".data then
    ("[Searching internet for: " ++ (⟨p⟩ : String) ++ "]").data
  else if k = "memory".data then
    ("[Searching memory for: " ++ (⟨p⟩ : String) ++ "]").data
  else if k = "query".data then
    ("[Querying database for: " ++ (⟨p⟩ : String) ++ "]").data
  else
    ("<" ++ (⟨k⟩ : String) ++ ">" ++ (⟨p⟩ : String) ++ "</" ++ (⟨k⟩ : String) ++
      ">").data

/-- Replace every command in the text, leftmost first, leaving the gaps
untouched. `fuel` bounds the recursion; any `fuel > length` computes the
fixpoint since every match consumes at least one character. -/
def rewriteMatchesFuel : Nat → List Char → List Char
  | 0, s => s
  | fuel + 1, s =>
    match findFirstMatch s with
    | none => s
    | some (gap, kp, rest) =>
      gap ++ claimReplacement kp.1 kp.2 ++ rewriteMatchesFuel fuel rest

/-- The claim's description of `process_search_commands`, as a function on
whole texts. -/
def claimRewrite (text : String) : String :=
  ⟨rewriteMatchesFuel (text.data.length + 1) text.data⟩

/-! ## Helper lemmas -/

theorem isPrefixOf_self (l : List Char) : l.isPrefixOf l = true := by
  induction l with
  | nil => rfl
  | cons c cs ih => simp [List.isPrefixOf, ih]

theorem hasSubList_append_self (n l : List Char) :
    hasSubList n (l ++ n) = true := by
  induction l with
  | nil =>
    cases n with
    | nil => rfl
    | cons c cs => simp [hasSubList, isPrefixOf_self]
  | cons c cs ih => simp [hasSubList, ih]

theorem str_append_ne_left (a b : String) (h : a ≠ "") : a ++ b ≠ "" := by
  intro hab
  apply h
  have hd : a.data ++ b.data = [] := by
    have := congrArg String.data hab
    rwa [String.data_append] at this
  exact String.ext (List.append_eq_nil.mp hd).1

theorem str_append_ne_right (a b : String) (h : b ≠ "") : a ++ b ≠ "" := by
  intro hab
  apply h
  have hd : a.data ++ b.data = [] := by
    have := congrArg String.data hab
    rwa [String.data_append] at this
  exact String.ext (List.append_eq_nil.mp hd).2

theorem charListLe_refl : ∀ a : List Char, charListLe a a = true
  | [] => rfl
  | c :: cs => by simp [charListLe, charListLe_refl cs]

theorem charListLe_trans : ∀ a b c : List Char,
    charListLe a b = true → charListLe b c = true → charListLe a c = true
  | [], _, _, _, _ => rfl
  | _ :: _, [], _, h1, _ => by simp [charListLe] at h1
  | _ :: _, _ :: _, [], _, h2 => by simp [charListLe] at h2
  | a :: as, b :: bs, c :: cs, h1, h2 => by
    simp only [charListLe] at h1 h2 ⊢
    by_cases hac : a.toNat < c.toNat
    · simp [hac]
    · by_cases hace : a.toNat = c.toNat
      · rw [if_neg hac, if_pos hace]
        by_cases hab : a.toNat < b.toNat
        · by_cases hbc : b.toNat < c.toNat
          · omega
          · by_cases hbce : b.toNat = c.toNat
            · omega
            · simp [hbc, hbce] at h2
        · by_cases habe : a.toNat = b.toNat
          · by_cases hbc : b.toNat < c.toNat
            · omega
            · by_cases hbce : b.toNat = c.toNat
              · rw [if_neg hab, if_pos habe] at h1
                rw [if_neg hbc, if_pos hbce] at h2
                exact charListLe_trans as bs cs h1 h2
              · simp [hbc, hbce] at h2
          · simp [hab, habe] at h1
      · exfalso
        by_cases hab : a.toNat < b.toNat
        · by_cases hbc : b.toNat < c.toNat
          · omega
          · by_cases hbce : b.toNat = c.toNat
            · omega
            · simp [hbc, hbce] at h2
        · by_cases habe : a.toNat = b.toNat
          · by_cases hbc : b.toNat < c.toNat
            · omega
            · by_cases hbce : b.toNat = c.toNat
              · omega
              · simp [hbc, hbce] at h2
          · simp [hab, habe] at h1

theorem strLe_refl (a : String) : strLe a a = true :=
  charListLe_refl a.data

theorem strLe_trans (a b c : String) (h1 : strLe a b = true)
    (h2 : strLe b c = true) : strLe a c = true :=
  charListLe_trans a.data b.data c.data h1 h2

/-! ## Claims -/

/-- C2: for every `Conversation` `c`, decoding the wire form of `c`
(`Conversation.from_dict` applied to `Conversation.to_dict c`) yields a
`Conversation` with identical id, identical ordered message sequence (each
message's role, content and timestamp equal), and identical `created_at` and
`updated_at` strings — whatever fresh uuid and clock reading the decoder
would have used for missing fields. -/
theorem claim_C2 (c : Conversation) (freshId now : String) :
    Conversation.from_dict freshId now c.to_dict = c := by
  cases c with
  | mk i ms ca ua =>
    simp only [Conversation.to_dict, Conversation.from_dict, Option.getD_some,
      List.map_map]
    congr 1
    induction ms with
    | nil => rfl
    | cons m t ih =>
      simp only [List.map_cons]
      rw [ih]
      rfl

/-- C8: the invariant `created_at <= updated_at` (lexicographic order on the
ISO-8601 strings, which agrees with time under a non-decreasing clock) holds
after construction and is preserved by each of the three append operations,
each of which sets `updated_at` to the current time `now`. -/
theorem claim_C8 (freshId t1 t2 sp content now : String) (c : Conversation)
    (hinv : strLe c.created_at c.updated_at = true)
    (hclock : strLe c.updated_at now = true) :
    strLe (Conversation.init freshId t1 t2 sp).created_at
      (Conversation.init freshId t1 t2 sp).updated_at = true ∧
    strLe (c.add_system_message content now).created_at
      (c.add_system_message content now).updated_at = true ∧
    strLe (c.add_user_message content now).created_at
      (c.add_user_message content now).updated_at = true ∧
    strLe (c.add_assistant_message content now).created_at
      (c.add_assistant_message content now).updated_at = true := by
  refine ⟨strLe_refl t2, ?_, ?_, ?_⟩ <;>
    exact strLe_trans _ _ _ hinv hclock

/-- Witness for C8 at the concrete conversation `convW` and clock reading
`"T2"`. -/
theorem claim_C8_witness :
    strLe convW.created_at convW.updated_at = true ∧
    strLe convW.updated_at "T2" = true ∧
    (strLe (Conversation.init "id-3" "T2" "T2" "hola").created_at
      (Conversation.init "id-3" "T2" "T2" "hola").updated_at = true ∧
    strLe (convW.add_system_message "x" "T2").created_at
      (convW.add_system_message "x" "T2").updated_at = true ∧
    strLe (convW.add_user_message "x" "T2").created_at
      (convW.add_user_message "x" "T2").updated_at = true ∧
    strLe (convW.add_assistant_message "x" "T2").created_at
      (convW.add_assistant_message "x" "T2").updated_at = true) :=
  ⟨by decide, by decide,
    claim_C8 "id-3" "T2" "T2" "hola" "x" "T2" convW (by decide) (by decide)⟩

/-- C1: when the analysis produced no lookup command (so the main generation
call runs) and that call fails with a `requests.RequestException` (backend
unreachable, non-2xx, timeout) carrying detail `e`, `get_response` returns
normally (`.ok`, no exception escapes) with a non-empty error string
containing `e`, and the conversation gains exactly the user message followed
by exactly one assistant message holding that error string. -/
theorem claim_C1 (s : ChatSession) (user_input e tU tA : String)
    (ac : AnalysisCall) (hA : pyTruthy (analyze_prompt ac) = false) :
    get_response s user_input ac (MainCall.transportErr e) tU tA =
      .ok { conversation :=
              (s.conversation.add_user_message user_input tU).add_assistant_message
                ("Error al comunicarse con Ollama: " ++ e) tA
            reply := "Error al comunicarse con Ollama: " ++ e
            saved := false } ∧
    ("Error al comunicarse con Ollama: " ++ e) ≠ "" ∧
    strContains ("Error al comunicarse con Ollama: " ++ e) e = true ∧
    ((s.conversation.add_user_message user_input tU).add_assistant_message
        ("Error al comunicarse con Ollama: " ++ e) tA).messages =
      s.conversation.messages ++
        [Message.init "user" user_input tU,
         Message.init "assistant" ("Error al comunicarse con Ollama: " ++ e) tA] := by
  refine ⟨?_, ?_, ?_, ?_⟩
  · simp [get_response, hA, normalTurn]
  · exact str_append_ne_left _ _ (by decide)
  · unfold strContains
    rw [String.data_append]
    exact hasSubList_append_self e.data _
  · simp [Conversation.add_user_message, Conversation.add_assistant_message,
      List.append_assoc]

/-- Witness for C1: a concrete session, a failed analysis call (which yields
no lookup command) and a concrete transport failure of the main call. -/
theorem claim_C1_witness :
    pyTruthy (analyze_prompt (AnalysisCall.exn "boom")) = false ∧
    get_response sessionW "hola" (AnalysisCall.exn "boom")
        (MainCall.transportErr "Connection refused") "t3" "t4" =
      .ok { conversation :=
              (sessionW.conversation.add_user_message "hola" "t3").add_assistant_message
                ("Error al comunicarse con Ollama: " ++ "Connection refused") "t4"
            reply := "Error al comunicarse con Ollama: " ++ "Connection refused"
            saved := false } :=
  ⟨rfl, (claim_C1 sessionW "hola" "Connection refused" "t3" "t4"
    (AnalysisCall.exn "boom") rfl).1⟩

/-- C4: when the analysis response text extracted by the fallback chain,
after stripping, equals exactly `"NO_SEARCH"`, `analyze_prompt` returns
`None` and `get_response` takes the normal-generation branch; likewise any
transport failure (`exn`) and any parsing failure raised inside the
extraction chain yield `None` (treated as "no lookup needed") and the
normal-generation branch — never an exception to the caller. -/
theorem claim_C4 (body : List (String × Json))
    (h : analysisValue body = .ok "NO_SEARCH")
    (s : ChatSession) (u tU tA : String) (mc : MainCall) :
    analyze_prompt (AnalysisCall.ok body) = none ∧
    get_response s u (AnalysisCall.ok body) mc tU tA = normalTurn s u mc tU tA ∧
    (∀ e, analyze_prompt (AnalysisCall.exn e) = none) ∧
    (∀ e s' u' mc' tU' tA',
      get_response s' u' (AnalysisCall.exn e) mc' tU' tA' =
        normalTurn s' u' mc' tU' tA') ∧
    (∀ body' err, analysisValue body' = Except.error err →
      analyze_prompt (AnalysisCall.ok body') = none) := by
  refine ⟨?_, ?_, ?_, ?_, ?_⟩
  · simp [analyze_prompt, h]
  · simp [get_response, analyze_prompt, h, pyTruthy]
  · intro e; rfl
  · intro e s' u' mc' tU' tA'
    simp [get_response, analyze_prompt, pyTruthy]
  · intro body' err herr
    simp [analyze_prompt, herr]

/-- Witness for C4: a backend analysis body whose `message.content` strips to
exactly `NO_SEARCH`. -/
theorem claim_C4_witness :
    analysisValue [("message", Json.obj [("content", Json.str "NO_SEARCH")])] =
      .ok "NO_SEARCH" ∧
    analyze_prompt (AnalysisCall.ok
      [("message", Json.obj [("content", Json.str "NO_SEARCH")])]) = none ∧
    get_response sessionW "hola"
        (AnalysisCall.ok [("message", Json.obj [("content", Json.str "NO_SEARCH")])])
        (MainCall.okRaw "ok") "t3" "t4" =
      normalTurn sessionW "hola" (MainCall.okRaw "ok") "t3" "t4" :=
  ⟨rfl,
   (claim_C4 [("message", Json.obj [("content", Json.str "NO_SEARCH")])] rfl
     sessionW "hola" "t3" "t4" (MainCall.okRaw "ok")).1,
   (claim_C4 [("message", Json.obj [("content", Json.str "NO_SEARCH")])] rfl
     sessionW "hola" "t3" "t4" (MainCall.okRaw "ok")).2.1⟩

/-- C5 (amended): `change_personality` on a name absent from the configured
personalities — or configured but mapped to the empty prompt, which the
source's truthiness test `if system_prompt:` treats the same way — returns
failure and leaves the session (hence the active conversation: id, message
count, messages) unchanged; on a name configured with a nonempty prompt it
returns success, keeps the config, and replaces the conversation by a fresh
one whose id is the newly generated uuid and whose only message is the
system message holding the personality prompt, with the user-name clause
appended exactly when the configured user name does not occur in the
prompt. -/
theorem claim_C5 (s : ChatSession) (name freshId t1 t2 : String) :
    (s.config.get_personality name = none →
      s.change_personality name freshId t1 t2 = (s, false)) ∧
    (s.config.get_personality name = some "" →
      s.change_personality name freshId t1 t2 = (s, false)) ∧
    (∀ sp, s.config.get_personality name = some sp → sp ≠ "" →
      (s.change_personality name freshId t1 t2).2 = true ∧
      (s.change_personality name freshId t1 t2).1.config = s.config ∧
      (s.change_personality name freshId t1 t2).1.conversation.id = freshId ∧
      (s.change_personality name freshId t1 t2).1.conversation.messages =
        [Message.init "system"
          (if strContains sp s.config.user_name then sp
           else sp ++ " Estás conversando con " ++ s.config.user_name ++ ".")
          t1]) := by
  refine ⟨?_, ?_, ?_⟩
  · intro h
    simp [ChatSession.change_personality, h, pyTruthy]
  · intro h
    simp [ChatSession.change_personality, h, pyTruthy]
  · intro sp hsp hne
    by_cases hc : strContains sp s.config.user_name
    · simp [ChatSession.change_personality, hsp, pyTruthy, hne, hc,
        Conversation.init, Conversation.add_system_message, hne]
    · simp [ChatSession.change_personality, hsp, pyTruthy, hne, hc,
        Conversation.init, Conversation.add_system_message,
        str_append_ne_right _ "." (by decide : ("." : String) ≠ "")]

set_option maxRecDepth 4000 in
/-- Counterexample to C5 as stated: the name `"vacia"` IS among the
configured personalities of `sessionW` (mapped to the empty prompt text),
yet `change_personality` returns failure and leaves the session untouched,
because the source tests truthiness (`if system_prompt:`, chat.py line 309)
rather than presence — contradicting the claim's "if the name is
configured, change_personality returns success". -/
theorem claim_C5_counterexample :
    sessionW.config.get_personality "vacia" = some "" ∧
    sessionW.change_personality "vacia" "uuid-7" "t5" "t6" =
      (sessionW, false) ∧
    (sessionW.change_personality "vacia" "uuid-7" "t5" "t6").2 ≠ true := by
  refine ⟨by decide, by decide, by decide⟩

/-- Witness for C5: the unknown name `"desconocida"` fails and changes
nothing; the configured-but-empty name `"vacia"` fails and changes nothing;
the configured name `"amigable"` succeeds and rebuilds the conversation. -/
theorem claim_C5_witness :
    sessionW.config.get_personality "desconocida" = none ∧
    sessionW.change_personality "desconocida" "uuid-1" "t5" "t6" =
      (sessionW, false) ∧
    sessionW.config.get_personality "vacia" = some "" ∧
    sessionW.change_personality "vacia" "uuid-1" "t5" "t6" =
      (sessionW, false) ∧
    sessionW.config.get_personality "amigable" =
      some "Eres Emma, una asistente amigable." ∧
    ("Eres Emma, una asistente amigable." : String) ≠ "" ∧
    ((sessionW.change_personality "amigable" "uuid-1" "t5" "t6").2 = true ∧
     (sessionW.change_personality "amigable" "uuid-1" "t5" "t6").1.config =
       sessionW.config ∧
     (sessionW.change_personality "amigable" "uuid-1" "t5" "t6").1.conversation.id =
       "uuid-1" ∧
     (sessionW.change_personality "amigable" "uuid-1" "t5" "t6").1.conversation.messages =
       [Message.init "system"
         (if strContains "Eres Emma, una asistente amigable."
             sessionW.config.user_name then "Eres Emma, una asistente amigable."
          else "Eres Emma, una asistente amigable." ++ " Estás conversando con " ++
            sessionW.config.user_name ++ ".")
         "t5"]) :=
  ⟨by decide,
   (claim_C5 sessionW "desconocida" "uuid-1" "t5" "t6").1 (by decide),
   by decide,
   (claim_C5 sessionW "vacia" "uuid-1" "t5" "t6").2.1 (by decide),
   by decide,
   by decide,
   (claim_C5 sessionW "amigable" "uuid-1" "t5" "t6").2.2
     "Eres Emma, una asistente amigable." (by decide) (by decide)⟩

/-- C9: persistence happens only on the successful normal-generation branch.
When the analysis yields a (truthy) lookup command, and when the main call
fails with a transport error, `_save_conversation` is not invoked
(`saved = false` — the turn's two messages exist only in the in-memory
conversation), whatever `save_conversations` says; on a successful normal
turn the save happens exactly when `save_conversations` is enabled. -/
theorem claim_C9 (s : ChatSession) (u e txt tU tA : String) (ac : AnalysisCall)
    (mc : MainCall) :
    (pyTruthy (analyze_prompt ac) = true →
      get_response s u ac mc tU tA =
        .ok (lookupTurn s u ((analyze_prompt ac).getD "") tU tA) ∧
      (lookupTurn s u ((analyze_prompt ac).getD "") tU tA).saved = false) ∧
    (pyTruthy (analyze_prompt ac) = false →
      get_response s u ac (MainCall.transportErr e) tU tA =
        .ok { conversation :=
                (s.conversation.add_user_message u tU).add_assistant_message
                  ("Error al comunicarse con Ollama: " ++ e) tA
              reply := "Error al comunicarse con Ollama: " ++ e
              saved := false }) ∧
    (pyTruthy (analyze_prompt ac) = false →
      get_response s u ac (MainCall.okRaw txt) tU tA =
        .ok { conversation :=
                (s.conversation.add_user_message u tU).add_assistant_message
                  (if strStrip txt = "" then
                     "Lo siento, no pude generar una respuesta."
                   else strStrip txt) tA
              reply := (if strStrip txt = "" then
                     "Lo siento, no pude generar una respuesta."
                   else strStrip txt)
              saved := s.config.save_conversations }) := by
  refine ⟨?_, ?_, ?_⟩
  · intro h
    refine ⟨?_, rfl⟩
    simp [get_response, h]
  · intro h
    simp [get_response, h, normalTurn]
  · intro h
    simp [get_response, h, normalTurn]

/-- Witness for C9: a session with `save_conversations` enabled; an analysis
reply carrying a lookup command (truthy, lookup branch, not saved) and a
failed analysis (falsy, normal branch) whose main call fails with a
transport error (not saved). -/
theorem claim_C9_witness :
    pyTruthy (analyze_prompt (AnalysisCall.ok
      [("response", Json.str "<search>x</search>")])) = true ∧
    (get_response sessionW "q"
        (AnalysisCall.ok [("response", Json.str "<search>x</search>")])
        (MainCall.okRaw "irrelevant") "t3" "t4" =
      .ok (lookupTurn sessionW "q"
        ((analyze_prompt (AnalysisCall.ok
          [("response", Json.str "<search>x</search>")])).getD "") "t3" "t4") ∧
     (lookupTurn sessionW "q"
        ((analyze_prompt (AnalysisCall.ok
          [("response", Json.str "<search>x</search>")])).getD "") "t3" "t4").saved =
       false) ∧
    pyTruthy (analyze_prompt (AnalysisCall.exn "down")) = false ∧
    get_response sessionW "q" (AnalysisCall.exn "down")
        (MainCall.transportErr "timeout") "t3" "t4" =
      .ok { conversation :=
              (sessionW.conversation.add_user_message "q" "t3").add_assistant_message
                ("Error al comunicarse con Ollama: " ++ "timeout") "t4"
            reply := "Error al comunicarse con Ollama: " ++ "timeout"
            saved := false } :=
  ⟨by decide,
   (claim_C9 sessionW "q" "e" "x" "t3" "t4"
     (AnalysisCall.ok [("response", Json.str "<search>x</search>")])
     (MainCall.okRaw "irrelevant")).1 (by decide),
   rfl,
   (claim_C9 sessionW "q" "timeout" "x" "t3" "t4"
     (AnalysisCall.exn "down") (MainCall.okRaw "x")).2.1 rfl⟩

/-- Helper for C6: the listing loop consumes a prefix of well-behaved `.json`
entries, accumulating their summaries in directory order. -/
theorem listLoop_append_good :
    ∀ (good tail : List (String × FileRead)) (acc : List ConvSummary),
      good.all fileOk = true →
      listLoop (good ++ tail) acc = listLoop tail (acc ++ fileSummaries good)
  | [], tail, acc, _ => by simp [fileSummaries]
  | f :: fs, tail, acc, hg => by
    obtain ⟨name, content⟩ := f
    simp only [List.all_cons, Bool.and_eq_true] at hg
    obtain ⟨hf, hgs⟩ := hg
    unfold fileOk at hf
    simp only [Bool.and_eq_true] at hf
    obtain ⟨hjson, hrest⟩ := hf
    cases content with
    | exn msg => simp at hrest
    | ok d =>
      cases hsum : summarize d with
      | error msg => simp [hsum] at hrest
      | ok s =>
        show listLoop ((name, FileRead.ok d) :: (fs ++ tail)) acc = _
        simp only [listLoop, hjson, if_true, hsum]
        rw [listLoop_append_good fs tail (acc ++ [s]) hgs]
        simp [fileSummaries, List.filterMap_cons, hjson, hsum, Except.toOption,
          List.append_assoc]

/-- C6: if some `.json` file in the conversation directory is unreadable or
malformed (it raises on read/decode, or its summary computation raises),
the enumeration aborts there: the listing produces no summaries for any of
the remaining files — the bad file is not skipped — and returns only the
(unsorted) summaries accumulated from the files before it. -/
theorem claim_C6 (good : List (String × FileRead)) (badName : String)
    (badContent : FileRead) (rest : List (String × FileRead))
    (hg : good.all fileOk = true)
    (hb : fileBad (badName, badContent) = true) :
    list_conversations true (good ++ (badName, badContent) :: rest) =
      fileSummaries good := by
  unfold list_conversations
  rw [listLoop_append_good good _ [] hg]
  unfold fileBad at hb
  simp only [Bool.and_eq_true] at hb
  obtain ⟨hjson, hfail⟩ := hb
  cases badContent with
  | exn msg => simp [listLoop, hjson]
  | ok d =>
    cases hsum : summarize d with
    | error msg => simp [listLoop, hjson, hsum]
    | ok s => simp [hsum] at hfail

/-- Witness for C6: one good file, then a file whose JSON decoding raises,
then another good file that consequently never appears in the output. -/
theorem claim_C6_witness :
    [("a.json", FileRead.ok storedGood1)].all fileOk = true ∧
    fileBad ("b.json", FileRead.exn "ValueError: Expecting value") = true ∧
    list_conversations true
      ([("a.json", FileRead.ok storedGood1)] ++
        ("b.json", FileRead.exn "ValueError: Expecting value") ::
          [("c.json", FileRead.ok storedGood2)]) =
      fileSummaries [("a.json", FileRead.ok storedGood1)] :=
  ⟨by decide, by decide,
   claim_C6 [("a.json", FileRead.ok storedGood1)] "b.json"
     (FileRead.exn "ValueError: Expecting value")
     [("c.json", FileRead.ok storedGood2)] (by decide) (by decide)⟩

/-- C10: the preview is built by indexing the first element of the stored
`messages` list, and the `[{}]` default applies only when the key is absent
(absent key: a summary with `message_count = 0` and preview `"..."`). A file
whose `messages` field is present but an empty list makes the index raise
`IndexError`, aborting the enumeration; the listing then returns only the
partial list of summaries accumulated before that file, in raw directory
order (unsorted — compare the sorted order produced without the bad file),
and files after it contribute nothing. -/
theorem claim_C10 :
    (∀ d : StoredConv, d.messages = some ([] : List StoredMsg) →
      summarize d = .error "IndexError: list index out of range") ∧
    (∀ d : StoredConv, d.messages = none →
      summarize d = .ok { id := d.id.getD "", created_at := d.created_at.getD "",
                          updated_at := d.updated_at.getD "",
                          message_count := 0, preview := "..." }) ∧
    list_conversations true
      [("a.json", FileRead.ok storedGood1), ("c.json", FileRead.ok storedGood2),
       ("b.json", FileRead.ok storedEmptyMsgs), ("d.json", FileRead.ok storedGood2)] =
      [{ id := "a", created_at := "T1", updated_at := "T1", message_count := 1,
         preview := "hola..." },
       { id := "c", created_at := "T2", updated_at := "T2", message_count := 1,
         preview := "adios..." }] ∧
    list_conversations true
      [("a.json", FileRead.ok storedGood1), ("c.json", FileRead.ok storedGood2)] =
      [{ id := "c", created_at := "T2", updated_at := "T2", message_count := 1,
         preview := "adios..." },
       { id := "a", created_at := "T1", updated_at := "T1", message_count := 1,
         preview := "hola..." }] := by
  refine ⟨?_, ?_, by decide, by decide⟩
  · intro d h
    simp [summarize, h]
  · intro d h
    simp [summarize, h, strTake]

/-- Witness for C10: the empty-`messages` file raises; a file with no
`messages` key gets the `[{}]` default and the `"..."` preview. -/
theorem claim_C10_witness :
    storedEmptyMsgs.messages = some ([] : List StoredMsg) ∧
    summarize storedEmptyMsgs = .error "IndexError: list index out of range" ∧
    ({ id := some "n", created_at := none, updated_at := none,
       messages := none } : StoredConv).messages = none ∧
    summarize { id := some "n", created_at := none, updated_at := none,
                messages := none } =
      .ok { id := "n", created_at := "", updated_at := "", message_count := 0,
            preview := "..." } :=
  ⟨rfl, claim_C10.1 storedEmptyMsgs rfl, rfl,
   claim_C10.2.1 { id := some "n", created_at := none, updated_at := none,
                   messages := none } rfl⟩

set_option maxRecDepth 4000 in
/-- Counterexample to C7 as stated: with a config whose user name is
`"Alice"` and whose base prompt `"Eres Emma."` does not contain it, the
session's single system message holds `initialSystemPrompt cfgAlice`
(the source behavior), which differs from the claim's effective prompt
(`claimedSystemPrompt`, which would append the user-name clause because the
base prompt lacks the configured user name): the source appends the clause
only when the user name is the literal `"Oz"`. -/
theorem claim_C7_counterexample :
    (ChatSession.init cfgAlice "id-1" "t1" "t2").conversation.messages =
      [Message.init "system" (initialSystemPrompt cfgAlice) "t1"] ∧
    initialSystemPrompt cfgAlice ≠ claimedSystemPrompt cfgAlice := by
  constructor
  · decide
  · decide

/-- C7 (amended): on construction, the effective system prompt is the
configured base prompt, followed by the user-name clause exactly when the
configured user name equals `"Oz"` and the literal `"Oz"` does not already
occur in the base prompt, followed by the fixed instruction block describing
the three lookup-command tags; and the session's conversation starts with
exactly this prompt as its single system message. -/
theorem claim_C7 (config : Config) (freshId t1 t2 : String) :
    initialSystemPrompt config =
      (if !(strContains config.system_prompt "Oz") && (config.user_name == "Oz")
       then
         config.system_prompt ++ " Estás interactuando con " ++ config.user_name ++
           ", un usuario de la interfaz Emma."
       else config.system_prompt) ++ searchInstructions ∧
    (ChatSession.init config freshId t1 t2).conversation.messages =
      [Message.init "system" (initialSystemPrompt config) t1] := by
  refine ⟨rfl, ?_⟩
  have hne : initialSystemPrompt config ≠ "" :=
    str_append_ne_right _ _ (by decide)
  simp [ChatSession.init, Conversation.init, Conversation.add_system_message, hne]

/-- Helper for C3: `[^>]+>` consumes exactly the `>`-free kind up to the
first `>`. -/
theorem readUntilGt_spec (k rest : List Char)
    (hk : k.all (fun c => c ≠ '>') = true) :
    readUntilGt (k ++ '>' :: rest) = some (k, rest) := by
  induction k with
  | nil => simp [readUntilGt]
  | cons c cs ih =>
    simp only [List.all_cons, Bool.and_eq_true, decide_eq_true_eq] at hk
    obtain ⟨hc, hcs⟩ := hk
    simp [readUntilGt, hc, ih hcs]

/-- Helper for C3: the non-greedy payload captures exactly `p` when `p` has
no newline and no occurrence of the closing tag starts inside it. -/
theorem splitAtClose_spec (close p : List Char) (hcl : close ≠ [])
    (hnl : p.all (fun c => c ≠ '\n') = true)
    (hno : noEarlyClose close p = true) :
    splitAtClose close (p ++ close) = some (p, []) := by
  induction p with
  | nil =>
    cases close with
    | nil => exact absurd rfl hcl
    | cons c cs =>
      simp [splitAtClose, isPrefixOf_self, List.drop_length]
  | cons c cs ih =>
    simp only [noEarlyClose, Bool.and_eq_true, Bool.not_eq_true'] at hno
    obtain ⟨hpre, hno2⟩ := hno
    simp only [List.all_cons, Bool.and_eq_true, decide_eq_true_eq] at hnl
    obtain ⟨hc, hnl2⟩ := hnl
    simp [splitAtClose, hpre, hc, ih hnl2 hno2]

/-- Helper for C3: the full pattern matches a well-formed
`kind > payload </kind>` text, capturing kind and payload. -/
theorem tryMatchTag_spec (k p : List Char) (hk0 : k ≠ [])
    (hk : k.all (fun c => c ≠ '>') = true)
    (hnl : p.all (fun c => c ≠ '\n') = true)
    (hno : noEarlyClose ('<' :: '/' :: (k ++ ['>'])) p = true) :
    tryMatchTag (k ++ '>' :: (p ++ '<' :: '/' :: (k ++ ['>']))) =
      some (k, p, []) := by
  unfold tryMatchTag
  rw [readUntilGt_spec k _ hk]
  have hsp := splitAtClose_spec ('<' :: '/' :: (k ++ ['>'])) p (by simp) hnl hno
  simp [hk0, hsp]

theorem reSubFuel_nil (n : Nat) : reSubFuel n [] = [] := by
  cases n <;> rfl

/-- Helper for C3: on a text that is exactly one tag command, `re.sub`
emits exactly the replacement. -/
theorem reSub_single (m : Nat) (rest k p : List Char)
    (h : tryMatchTag rest = some (k, p, [])) :
    reSubFuel (m + 1) ('<' :: rest) = replaceSearch k p := by
  simp [reSubFuel, h, reSubFuel_nil]

/-- Helper for C3: for every kind `K` (nonempty, `>`-free — the shape
`[^>]+` can match) and payload `P` (no newline, and no occurrence of the
closing tag `</K>` starting inside it — the shape the non-greedy
`(.*?)</\1>` captures whole), `process_search_commands` rewrites `<K>P</K>`
to the placeholder selected by the kind, and leaves the match verbatim for
every other kind. -/
theorem process_single_tag (K P : String) (hk0 : K ≠ "")
    (hk : K.data.all (fun c => c ≠ '>') = true)
    (hp : P.data.all (fun c => c ≠ '\n') = true)
    (hno : noEarlyClose ('<' :: '/' :: (K.data ++ ['>'])) P.data = true) :
    process_search_commands ("<" ++ K ++ ">" ++ P ++ "</" ++ K ++ ">") =
      if K = "search" then "[Searching internet for: " ++ P ++ "]"
      else if K = "memory" then "[Searching memory for: " ++ P ++ "]"
      else if K = "query" then "[Querying database for: " ++ P ++ "]"
      else "<" ++ K ++ ">" ++ P ++ "</" ++ K ++ ">" := by
  have hKd : K.data ≠ [] := fun h => hk0 (String.ext h)
  have hdata : ("<" ++ K ++ ">" ++ P ++ "</" ++ K ++ ">").data
      = '<' :: (K.data ++ '>' :: (P.data ++ '<' :: '/' :: (K.data ++ ['>']))) := by
    have h1 : ("<" : String).data = ['<'] := rfl
    have h2 : (">" : String).data = ['>'] := rfl
    have h3 : ("</" : String).data = ['<', '/'] := rfl
    simp [String.data_append, h1, h2, h3]
  have htm := tryMatchTag_spec K.data P.data hKd hk hp hno
  have hmain : process_search_commands ("<" ++ K ++ ">" ++ P ++ "</" ++ K ++ ">") =
      ⟨replaceSearch K.data P.data⟩ := by
    unfold process_search_commands
    rw [hdata]
    simp only [List.length_cons]
    rw [reSub_single _ _ _ _ htm]
  rw [hmain]
  by_cases h1 : K = "search"
  · subst h1
    rw [if_pos rfl]
    apply String.ext
    simp [replaceSearch, String.data_append]
  · rw [if_neg h1]
    have h1d : K.data ≠ "search".data := fun h => h1 (String.ext h)
    by_cases h2 : K = "memory"
    · subst h2
      rw [if_pos rfl]
      apply String.ext
      simp [replaceSearch, String.data_append, h1d]
    · rw [if_neg h2]
      have h2d : K.data ≠ "memory".data := fun h => h2 (String.ext h)
      by_cases h3 : K = "query"
      · subst h3
        rw [if_pos rfl]
        apply String.ext
        simp [replaceSearch, String.data_append, h1d, h2d]
      · rw [if_neg h3]
        have h3d : K.data ≠ "query".data := fun h => h3 (String.ext h)
        apply String.ext
        simp [replaceSearch, h1d, h2d, h3d, hdata]

/-- Helper for C3: `[^>]+>` consumes the kind plus one `>`; lengths add up. -/
theorem readUntilGt_length : ∀ (cs k r : List Char),
    readUntilGt cs = some (k, r) → cs.length = k.length + 1 + r.length
  | [], k, r, h => by simp [readUntilGt] at h
  | c :: cs, k, r, h => by
    by_cases hc : c = '>'
    · simp [readUntilGt, hc] at h
      obtain ⟨hk, hr⟩ := h
      subst hk; subst hr
      simp [hc]
      omega
    · simp only [readUntilGt, hc, if_false] at h
      cases hru : readUntilGt cs with
      | none => rw [hru] at h; simp at h
      | some pr =>
        obtain ⟨k', r'⟩ := pr
        rw [hru] at h
        simp at h
        obtain ⟨hk, hr⟩ := h
        subst hk; subst hr
        have := readUntilGt_length cs k' r' hru
        simp
        omega

/-- Helper for C3: a successful non-greedy split accounts for the whole
input length. -/
theorem splitAtClose_length : ∀ (close s p r : List Char),
    splitAtClose close s = some (p, r) →
    s.length = p.length + close.length + r.length
  | close, [], p, r, h => by
    by_cases hp : close.isPrefixOf ([] : List Char)
    · simp [splitAtClose, hp] at h
      obtain ⟨h1, h2⟩ := h
      subst h1; subst h2
      have : close = [] := by
        have := (List.isPrefixOf_iff_prefix.mp hp)
        exact List.prefix_nil.mp this
      simp [this]
    · simp [splitAtClose, hp] at h
  | close, c :: cs, p, r, h => by
    by_cases hp : close.isPrefixOf (c :: cs)
    · simp only [splitAtClose, hp, if_true, Option.some.injEq, Prod.mk.injEq] at h
      obtain ⟨h1, h2⟩ := h
      subst h1; subst h2
      have hle : close.length ≤ (c :: cs).length :=
        (List.isPrefixOf_iff_prefix.mp hp).length_le
      rw [List.length_drop]
      simp only [List.length_nil]
      omega
    · simp only [splitAtClose, hp, if_false] at h
      by_cases hn : c = '\n'
      · simp [hn] at h
      · simp only [hn, if_false] at h
        cases hsp : splitAtClose close cs with
        | none => rw [hsp] at h; simp at h
        | some pr =>
          obtain ⟨p', r'⟩ := pr
          rw [hsp] at h
          simp at h
          obtain ⟨h1, h2⟩ := h
          subst h1; subst h2
          have := splitAtClose_length close cs p' r' hsp
          simp
          omega

/-- Helper for C3: a successful tag match consumes at least one character. -/
theorem tryMatchTag_rest_lt (cs k p rest : List Char)
    (h : tryMatchTag cs = some (k, p, rest)) : rest.length < cs.length := by
  unfold tryMatchTag at h
  cases hru : readUntilGt cs with
  | none => rw [hru] at h; simp at h
  | some pr =>
    obtain ⟨k', afterGt⟩ := pr
    rw [hru] at h
    by_cases hk : k' = []
    · simp [hk] at h
    · simp only [hk, if_false] at h
      cases hsp : splitAtClose ('<' :: '/' :: (k' ++ ['>'])) afterGt with
      | none => rw [hsp] at h; simp at h
      | some pr2 =>
        obtain ⟨p', rest'⟩ := pr2
        rw [hsp] at h
        simp at h
        obtain ⟨h1, h2, h3⟩ := h
        subst h3
        have hl1 := readUntilGt_length cs k' afterGt hru
        have hl2 := splitAtClose_length ('<' :: '/' :: (k' ++ ['>'])) afterGt
          p' rest' hsp
        simp at hl2
        omega

/-- Helper for C3: the rest after the leftmost match is strictly shorter
than the input. -/
theorem findFirstMatch_rest_lt : ∀ (s gap : List Char)
    (kp : List Char × List Char) (rest : List Char),
    findFirstMatch s = some (gap, kp, rest) → rest.length < s.length
  | [], gap, kp, rest, h => by simp [findFirstMatch] at h
  | c :: cs, gap, kp, rest, h => by
    by_cases hc : c = '<'
    · simp only [findFirstMatch, hc, if_true] at h
      cases htm : tryMatchTag cs with
      | some r =>
        obtain ⟨k, p, rest'⟩ := r
        rw [htm] at h
        simp at h
        obtain ⟨h1, h2, h3⟩ := h
        subst h3
        have := tryMatchTag_rest_lt cs k p rest' htm
        simp
        omega
      | none =>
        rw [htm] at h
        cases hff : findFirstMatch cs with
        | none => rw [hff] at h; simp at h
        | some r =>
          obtain ⟨gap', kp', rest'⟩ := r
          rw [hff] at h
          simp at h
          obtain ⟨h1, h2, h3⟩ := h
          subst h3
          have := findFirstMatch_rest_lt cs gap' kp' rest' hff
          simp
          omega
    · simp only [findFirstMatch, hc, if_false] at h
      cases hff : findFirstMatch cs with
      | none => rw [hff] at h; simp at h
      | some r =>
        obtain ⟨gap', kp', rest'⟩ := r
        rw [hff] at h
        simp at h
        obtain ⟨h1, h2, h3⟩ := h
        subst h3
        have := findFirstMatch_rest_lt cs gap' kp' rest' hff
        simp
        omega

/-- Helper for C3: `rewriteMatchesFuel` is fuel-irrelevant once the fuel
exceeds the input length. -/
theorem rewriteMatchesFuel_congr : ∀ (f g : Nat) (s : List Char),
    s.length < f → s.length < g →
    rewriteMatchesFuel f s = rewriteMatchesFuel g s
  | 0, _, s, hf, _ => absurd hf (by omega)
  | _ + 1, 0, s, _, hg => absurd hg (by omega)
  | f + 1, g + 1, s, hf, hg => by
    cases hm : findFirstMatch s with
    | none => simp [rewriteMatchesFuel, hm]
    | some r =>
      obtain ⟨gap, kp, rest⟩ := r
      have hlt := findFirstMatch_rest_lt s gap kp rest hm
      simp only [rewriteMatchesFuel, hm]
      rw [rewriteMatchesFuel_congr f g rest (by omega) (by omega)]

/-- Helper for C3: the replacement built from the claim's words coincides
with the source's `replace_search` callback. -/
theorem claimReplacement_eq (k p : List Char) :
    claimReplacement k p = replaceSearch k p := by
  unfold claimReplacement replaceSearch
  have hd : ∀ l : List Char, (⟨l⟩ : String).data = l := fun _ => rfl
  by_cases h1 : k = "search".data
  · simp [h1, String.data_append, hd]
  · by_cases h2 : k = "memory".data
    · simp [h1, h2, String.data_append, hd]
    · by_cases h3 : k = "query".data
      · simp [h1, h2, h3, String.data_append, hd]
      · simp [h1, h2, h3, String.data_append, hd]

/-- Helper for C3: on every input, the source's `re.sub` scan equals the
claim's leftmost-match rewriting. -/
theorem reSub_eq_rewrite : ∀ (f : Nat) (s : List Char), s.length < f →
    reSubFuel f s = rewriteMatchesFuel f s
  | 0, s, hf => absurd hf (by omega)
  | f + 1, [], _ => by simp [reSubFuel, rewriteMatchesFuel, findFirstMatch]
  | f + 1, c :: cs, hf => by
    have hcs : cs.length < f := by simp at hf; omega
    by_cases hc : c = '<'
    · cases htm : tryMatchTag cs with
      | some r =>
        obtain ⟨k, p, rest⟩ := r
        have hrest : rest.length < cs.length := tryMatchTag_rest_lt cs k p rest htm
        simp only [reSubFuel, hc, if_true, htm, rewriteMatchesFuel,
          findFirstMatch, reSubFuel_nil]
        rw [reSub_eq_rewrite f rest (by omega)]
        rw [claimReplacement_eq]
        simp [reSubFuel_nil]
      | none =>
        simp only [reSubFuel, hc, if_true, htm, rewriteMatchesFuel, findFirstMatch]
        rw [reSub_eq_rewrite f cs hcs]
        cases hff : findFirstMatch cs with
        | none =>
          obtain ⟨f', rfl⟩ : ∃ f', f = f' + 1 := ⟨f - 1, by omega⟩
          simp [rewriteMatchesFuel, hff]
        | some r =>
          obtain ⟨gap, kp, rest⟩ := r
          have hrest := findFirstMatch_rest_lt cs gap kp rest hff
          obtain ⟨f', rfl⟩ : ∃ f', f = f' + 1 := ⟨f - 1, by omega⟩
          simp only [rewriteMatchesFuel, hff, Option.map_some]
          rw [rewriteMatchesFuel_congr f' (f' + 1) rest (by omega) (by omega)]
          simp
          cases hffr : findFirstMatch rest with
          | none => simp [rewriteMatchesFuel, hffr]
          | some r2 =>
            obtain ⟨g2, kp2, r3⟩ := r2
            simp [rewriteMatchesFuel, hffr, List.append_assoc]
    · simp only [reSubFuel, hc, if_false, rewriteMatchesFuel, findFirstMatch]
      rw [reSub_eq_rewrite f cs hcs]
      cases hff : findFirstMatch cs with
      | none =>
        obtain ⟨f', rfl⟩ : ∃ f', f = f' + 1 := ⟨f - 1, by omega⟩
        simp [rewriteMatchesFuel, hff]
      | some r =>
        obtain ⟨gap, kp, rest⟩ := r
        have hrest := findFirstMatch_rest_lt cs gap kp rest hff
        obtain ⟨f', rfl⟩ : ∃ f', f = f' + 1 := ⟨f - 1, by omega⟩
        simp only [rewriteMatchesFuel, hff, Option.map_some]
        rw [rewriteMatchesFuel_congr f' (f' + 1) rest (by omega) (by omega)]
        simp
        cases hffr : findFirstMatch rest with
        | none => simp [rewriteMatchesFuel, hffr]
        | some r2 =>
          obtain ⟨g2, kp2, r3⟩ := r2
          simp [rewriteMatchesFuel, hffr, List.append_assoc]

/-- C3: for every input text, `process_search_commands` equals the claim's
description of it (`claimRewrite`): each non-greedy tag-delimited command
`<kind>payload</kind>` whose opening and closing kinds match is replaced by
`[Searching internet for: payload]` when the kind is `search`,
`[Searching memory for: payload]` when `memory`, `[Querying database for:
payload]` when `query`, and any other kind's match is left verbatim, with
the text outside the matches untouched; additionally, the per-kind mapping
is proved directly on every single well-formed command, and on the claim's
concrete instances, including texts with several embedded commands. -/
theorem claim_C3 :
    (∀ text : String, process_search_commands text = claimRewrite text) ∧
    (∀ K P : String, K ≠ "" → K.data.all (fun c => c ≠ '>') = true →
      P.data.all (fun c => c ≠ '\n') = true →
      noEarlyClose ('<' :: '/' :: (K.data ++ ['>'])) P.data = true →
      process_search_commands ("<" ++ K ++ ">" ++ P ++ "</" ++ K ++ ">") =
        if K = "search" then "[Searching internet for: " ++ P ++ "]"
        else if K = "memory" then "[Searching memory for: " ++ P ++ "]"
        else if K = "query" then "[Querying database for: " ++ P ++ "]"
        else "<" ++ K ++ ">" ++ P ++ "</" ++ K ++ ">") ∧
    process_search_commands "<search>cats</search>" =
      "[Searching internet for: cats]" ∧
    process_search_commands "<foo>z</foo>" = "<foo>z</foo>" ∧
    process_search_commands "Busca: <search>gatos</search> y <memory>IA</memory> ya." =
      "Busca: [Searching internet for: gatos] y [Searching memory for: IA] ya." ∧
    process_search_commands "<query>q1</query><query>q2</query>" =
      "[Querying database for: q1][Querying database for: q2]" := by
  refine ⟨?_, process_single_tag, by decide, by decide, by decide, by decide⟩
  intro text
  unfold process_search_commands claimRewrite
  exact congrArg String.mk
    (reSub_eq_rewrite (text.data.length + 1) text.data (by omega))

/-- Witness for C3: the claim's concrete instance with the hypotheses of
the single-command conjunct discharged, plus the universal equivalence
applied to a compound text and evaluated. -/
theorem claim_C3_witness :
    (("search" : String) ≠ "" ∧ "search".data.all (fun c => c ≠ '>') = true ∧
     "cats".data.all (fun c => c ≠ '\n') = true ∧
     noEarlyClose ('<' :: '/' :: ("search".data ++ ['>'])) "cats".data = true) ∧
    process_search_commands "<search>cats</search>" =
      "[Searching internet for: cats]" ∧
    process_search_commands "a <memory>x</memory> b" =
      claimRewrite "a <memory>x</memory> b" ∧
    claimRewrite "a <memory>x</memory> b" = "a [Searching memory for: x] b" := by
  refine ⟨⟨by decide, by decide, by decide, by decide⟩, ?_, ?_, by decide⟩
  · have h := claim_C3.2.1 "search" "cats" (by decide) (by decide) (by decide) (by decide)
    rw [if_pos rfl] at h
    exact h
  · exact claim_C3.1 "a <memory>x</memory> b"
